import Mathlib

/-!
Verification of the behavioural-contracts runtime (shallow embedding).

The repository ships two parallel packages, `behavioral_contracts` (US
spelling) and `behavioural_contracts` (UK spelling).  Definitions below are
translated from the Python sources; the namespaces `Behavioral` and
`Behavioural` mirror the two package directories.  Python runtime values are
modelled by `PyVal`, Python exceptions by `PyErr`, and fallible Python
expressions by `Except PyErr _`.

The packages import `temperature.py` and `health_monitor.py`, whose sources
are not in the repository snapshot; those two components are modelled from
the specification (see the doc comments on `TemperatureController` and
`HealthMonitor`).
-/

/-- Python runtime values (the subset this program manipulates): `None`,
booleans, integers, strings, lists and string-keyed dicts. -/
inductive PyVal where
  | none
  | bool (b : Bool)
  | int (n : Int)
  | str (s : String)
  | list (xs : List PyVal)
  | dict (entries : List (String × PyVal))

/-- Python exceptions relevant to the translated code paths.  `typeError` is
distinguished because the enforcement wrapper catches it specially. -/
inductive PyErr where
  | typeError
  | keyError
  | attributeError
  deriving DecidableEq, Repr

/-- A Python dict with string keys, in insertion order. -/
abbrev PyDict := List (String × PyVal)

/-- First-match key lookup, like `d[k]` / `d.get(k)` on a Python dict. -/
def dictLookup : PyDict → String → Option PyVal
  | [], _ => Option.none
  | (k, v) :: rest, key => if k = key then some v else dictLookup rest key

/-- Python dict assignment `d[k] = v`: replace in place if the key exists,
else append (insertion order preserved). -/
def dictSet : PyDict → String → PyVal → PyDict
  | [], key, v => [(key, v)]
  | (k, w) :: rest, key, v =>
    if k = key then (k, v) :: rest else (k, w) :: dictSet rest key v

/-- Python truthiness of a value (`bool(v)`). -/
def pyTruthy : PyVal → Bool
  | .none => false
  | .bool b => b
  | .int n => n ≠ 0
  | .str s => s ≠ ""
  | .list xs => ¬ xs.isEmpty
  | .dict es => ¬ es.isEmpty

/-- Fuel-bounded Python equality `x == y`.  Python treats `True == 1` and
`False == 0` as true (bool is an int subclass); containers compare
elementwise.  The fuel is always instantiated large enough via `pyEq`. -/
def pyEqF : Nat → PyVal → PyVal → Bool
  | 0, _, _ => false
  | _ + 1, .none, .none => true
  | _ + 1, .bool a, .bool b => a = b
  | _ + 1, .int a, .int b => a = b
  | _ + 1, .bool a, .int b => (if a then (1 : Int) else 0) = b
  | _ + 1, .int a, .bool b => a = (if b then (1 : Int) else 0)
  | _ + 1, .str a, .str b => a = b
  | fuel + 1, .list (x :: xs), .list (y :: ys) =>
    pyEqF fuel x y && pyEqF fuel (.list xs) (.list ys)
  | _ + 1, .list [], .list [] => true
  | fuel + 1, .dict ((k, x) :: xs), .dict ((l, y) :: ys) =>
    k = l && pyEqF fuel x y && pyEqF fuel (.dict xs) (.dict ys)
  | _ + 1, .dict [], .dict [] => true
  | _ + 1, _, _ => false

/-- Size measure used to pick a sufficient fuel for `pyEqF`. -/
def pySize : PyVal → Nat
  | .none | .bool _ | .int _ | .str _ => 1
  | .list xs => 1 + pySizeList xs
  | .dict es => 1 + pySizeDict es
where
  pySizeList : List PyVal → Nat
    | [] => 1
    | x :: xs => 1 + pySize x + pySizeList xs
  pySizeDict : List (String × PyVal) → Nat
    | [] => 1
    | (_, x) :: xs => 1 + pySize x + pySizeDict xs

/-- Python equality `x == y` on modelled values. -/
def pyEq (x y : PyVal) : Bool := pyEqF (pySize x + pySize y) x y

/-- Python membership `x in container`.  On a dict it tests keys (a list or
dict needle is unhashable: `TypeError`); on a list it tests elementwise
equality; on a string it is substring search, and a non-string needle is a
`TypeError`; other receivers are not containers. -/
def pyContains : PyVal → PyVal → Except PyErr Bool
  | .dict es, .str k => .ok ((dictLookup es k).isSome)
  | .dict _, .list _ => .error .typeError
  | .dict _, .dict _ => .error .typeError
  | .dict _, _ => .ok false
  | .list xs, x => .ok (xs.any (fun y => pyEq x y))
  | .str s, .str t => .ok (decide (t.data <:+: s.data))
  | .str _, _ => .error .typeError
  | _, _ => .error .typeError

/-- Python `v.get(key, default)`: only dicts have `.get`
(`AttributeError` otherwise). -/
def pyGetD : PyVal → String → PyVal → Except PyErr PyVal
  | .dict es, key, dflt => .ok ((dictLookup es key).getD dflt)
  | _, _, _ => .error .attributeError

/-- Python subscription `v[key]` with a string key: `KeyError` on a dict
missing the key, `TypeError` on non-dict receivers. -/
def pySubscript : PyVal → String → Except PyErr PyVal
  | .dict es, key =>
    match dictLookup es key with
    | some v => .ok v
    | Option.none => .error .keyError
  | _, _ => .error .typeError

/-- Lower-case a character (ASCII, as the modelled strings use). -/
def charLower (c : Char) : Char :=
  if 'A' ≤ c ∧ c ≤ 'Z' then Char.ofNat (c.toNat + 32) else c

/-- Lower-case a string, modelling Python `s.lower()` on ASCII data. -/
def strLower (s : String) : String := ⟨s.data.map charLower⟩

/-- Python `v.lower()`: only strings have `.lower` (`AttributeError`
otherwise). -/
def pyLower : PyVal → Except PyErr String
  | .str s => .ok (strLower s)
  | _ => .error .attributeError

/-- Python `v[0]`: first element of a list, first character of a non-empty
string; a dict raises `KeyError` (no integer keys in the model), everything
else `TypeError`.  Empty sequences raise, matching Python `IndexError`
(folded into `keyError` since the program never distinguishes them). -/
def pyIndexZero : PyVal → Except PyErr PyVal
  | .list (x :: _) => .ok x
  | .list [] => .error .keyError
  | .str s =>
    match s.data with
    | c :: _ => .ok (.str ⟨[c]⟩)
    | [] => .error .keyError
  | .dict _ => .error .keyError
  | _ => .error .typeError

/-- Whitespace recognised by Python `str.strip()` and the JSON grammar on the
payloads this program sees. -/
def isSpaceChar (c : Char) : Bool := c = ' ' || c = '\t' || c = '\n' || c = '\r'

/-- Python `s.strip()` on the character list of a string. -/
def stripChars (l : List Char) : List Char :=
  ((l.dropWhile isSpaceChar).reverse.dropWhile isSpaceChar).reverse

/-- Python `s.strip()`. -/
def pyStrip (s : String) : String := ⟨stripChars s.data⟩

/-- Python `s.split("\n")`. -/
def splitNl : List Char → List (List Char)
  | [] => [[]]
  | c :: rest =>
    match splitNl rest with
    | [] => [[c]]
    | h :: t => if c = '\n' then [] :: h :: t else (c :: h) :: t

/-- Python `"\n".join(pieces)`. -/
def joinNl : List (List Char) → List Char
  | [] => []
  | [l] => l
  | l :: rest => l ++ '\n' :: joinNl rest

/-- The backtick character, via its code point. -/
def tick : Char := Char.ofNat 96

/-- Three consecutive backticks, the markdown fence marker. -/
def ticks3 : List Char := [tick, tick, tick]

/-- Fuel-bounded core of Python `s.replace(fence, "")` where fence is three
backticks: scan left to right deleting non-overlapping occurrences. -/
def replaceTicksF : Nat → List Char → List Char
  | 0, l => l
  | _ + 1, [] => []
  | fuel + 1, c :: rest =>
    if c = tick ∧ rest.take 2 = [tick, tick] then replaceTicksF fuel (rest.drop 2)
    else c :: replaceTicksF fuel rest

/-- Python `s.replace("<fence>", "")` for the three-backtick fence. -/
def replaceTicks (l : List Char) : List Char := replaceTicksF l.length l

/-- Scan a JSON string-literal body (after the opening quote), returning the
decoded characters and the remaining input after the closing quote.  The
escape forms cover the payloads the program round-trips. -/
def scanStrLit : List Char → Option (List Char × List Char)
  | [] => Option.none
  | c :: rest =>
    if c = '"' then some ([], rest)
    else if c = '\\' then
      match rest with
      | [] => Option.none
      | e :: rest2 =>
        let dec : Option Char :=
          if e = '"' then some '"'
          else if e = '\\' then some '\\'
          else if e = '/' then some '/'
          else if e = 'n' then some '\n'
          else if e = 't' then some '\t'
          else if e = 'r' then some '\r'
          else Option.none
        match dec with
        | some d =>
          match scanStrLit rest2 with
          | some (s, r) => some (d :: s, r)
          | Option.none => Option.none
        | Option.none => Option.none
    else
      match scanStrLit rest with
      | some (s, r) => some (c :: s, r)
      | Option.none => Option.none

/-- Decimal digit test. -/
def isDigitChar (c : Char) : Bool := decide ('0' ≤ c) && decide (c ≤ '9')

/-- Accumulate decimal digits into a natural number. -/
def digitsToNat : List Char → Nat → Nat
  | [], acc => acc
  | c :: rest, acc => digitsToNat rest (acc * 10 + (c.toNat - 48))

/-- Scan a JSON integer (optional minus, then digits).  Floats do not occur
in the modelled payloads and are rejected. -/
def scanInt (l : List Char) : Option (Int × List Char) :=
  let p : Bool × List Char :=
    match l with
    | c :: rest => if c = '-' then (true, rest) else (false, l)
    | [] => (false, l)
  let ds := p.2.takeWhile isDigitChar
  let rest := p.2.dropWhile isDigitChar
  if ds.isEmpty then Option.none
  else
    match rest with
    | '.' :: _ => Option.none
    | 'e' :: _ => Option.none
    | 'E' :: _ => Option.none
    | _ =>
      some (if p.1 then -(digitsToNat ds 0 : Int) else (digitsToNat ds 0 : Int), rest)

/-- Fuel-bounded recursive-descent JSON reader standing in for `json.loads`.
Job 0 parses one value; job 1 parses the element list of a non-empty array;
job 2 parses the member list of a non-empty object.  Jobs 1 and 2 return
their collections wrapped as `.list` / `.dict`. -/
def jsonReadF : Nat → Nat → List Char → Option (PyVal × List Char)
  | 0, _, _ => Option.none
  | fuel + 1, 0, l =>
    match List.dropWhile isSpaceChar l with
    | [] => Option.none
    | c :: rest =>
      if c = '"' then
        match scanStrLit rest with
        | some (s, r) => some (.str ⟨s⟩, r)
        | Option.none => Option.none
      else if c = '{' then
        match List.dropWhile isSpaceChar rest with
        | '}' :: r => some (.dict [], r)
        | l2 => jsonReadF fuel 2 l2
      else if c = '[' then
        match List.dropWhile isSpaceChar rest with
        | ']' :: r => some (.list [], r)
        | l2 => jsonReadF fuel 1 l2
      else if c = 'n' ∧ rest.take 3 = ['u', 'l', 'l'] then some (.none, rest.drop 3)
      else if c = 't' ∧ rest.take 3 = ['r', 'u', 'e'] then some (.bool true, rest.drop 3)
      else if c = 'f' ∧ rest.take 4 = ['a', 'l', 's', 'e'] then
        some (.bool false, rest.drop 4)
      else (scanInt (c :: rest)).map (fun p => (.int p.1, p.2))
  | fuel + 1, 1, l =>
    match jsonReadF fuel 0 l with
    | some (v, r) =>
      match List.dropWhile isSpaceChar r with
      | ',' :: r2 =>
        match jsonReadF fuel 1 r2 with
        | some (.list vs, r3) => some (.list (v :: vs), r3)
        | _ => Option.none
      | ']' :: r2 => some (.list [v], r2)
      | _ => Option.none
    | Option.none => Option.none
  | fuel + 1, 2, l =>
    match List.dropWhile isSpaceChar l with
    | '"' :: rest =>
      match scanStrLit rest with
      | some (k, r) =>
        match List.dropWhile isSpaceChar r with
        | ':' :: r2 =>
          match jsonReadF fuel 0 r2 with
          | some (v, r3) =>
            match List.dropWhile isSpaceChar r3 with
            | ',' :: r4 =>
              match jsonReadF fuel 2 r4 with
              | some (.dict es, r5) => some (.dict ((⟨k⟩, v) :: es), r5)
              | _ => Option.none
            | '}' :: r4 => some (.dict [(⟨k⟩, v)], r4)
            | _ => Option.none
          | Option.none => Option.none
        | _ => Option.none
      | Option.none => Option.none
    | _ => Option.none
  | _ + 1, _, _ => Option.none

/-- Stand-in for Python `json.loads`: parse one JSON document, allowing only
trailing whitespace. -/
def jsonLoads (s : String) : Option PyVal :=
  match jsonReadF (s.data.length + 2) 0 s.data with
  | some (v, rest) =>
    if (List.dropWhile isSpaceChar rest).isEmpty then some v else Option.none
  | Option.none => Option.none

/-- JSON string-literal encoding as `json.dumps` performs it on the modelled
payloads: escape backslash and quote, all other characters verbatim. -/
def dumpsEscape (s : String) : List Char :=
  s.data.foldr (fun c acc => if c = '"' ∨ c = '\\' then '\\' :: c :: acc else c :: acc) []

/-- Fuel-bounded core of `json.dumps` with its default separators.  Job 0
prints one value, job 1 the elements of a list, job 2 the members of a
dict. -/
def jsonDumpsF : Nat → Nat → PyVal → List Char
  | 0, _, _ => []
  | _ + 1, 0, .none => ['n', 'u', 'l', 'l']
  | _ + 1, 0, .bool true => ['t', 'r', 'u', 'e']
  | _ + 1, 0, .bool false => ['f', 'a', 'l', 's', 'e']
  | _ + 1, 0, .int n => (toString n).data
  | _ + 1, 0, .str s => '"' :: (dumpsEscape s ++ ['"'])
  | fuel + 1, 0, .list xs => '[' :: (jsonDumpsF fuel 1 (.list xs) ++ [']'])
  | fuel + 1, 0, .dict es => '{' :: (jsonDumpsF fuel 2 (.dict es) ++ ['}'])
  | _ + 1, 1, .list [] => []
  | fuel + 1, 1, .list [x] => jsonDumpsF fuel 0 x
  | fuel + 1, 1, .list (x :: xs) =>
    jsonDumpsF fuel 0 x ++ ',' :: ' ' :: jsonDumpsF fuel 1 (.list xs)
  | _ + 1, 2, .dict [] => []
  | fuel + 1, 2, .dict [(k, v)] =>
    '"' :: (dumpsEscape k ++ '"' :: ':' :: ' ' :: jsonDumpsF fuel 0 v)
  | fuel + 1, 2, .dict ((k, v) :: es) =>
    '"' :: (dumpsEscape k ++ '"' :: ':' :: ' ' ::
      (jsonDumpsF fuel 0 v ++ ',' :: ' ' :: jsonDumpsF fuel 2 (.dict es)))
  | _ + 1, _, _ => []

/-- Stand-in for Python `json.dumps` (default separators). -/
def json_dumps (v : PyVal) : String := ⟨jsonDumpsF (pySize v + 2) 0 v⟩

/-- Translation of `try_parse_json` (identical in `behavioral_contracts/`
`validator.py` lines 11-35 and `behavioural_contracts/validator.py` lines
12-35): dicts pass through unchanged, non-strings yield `None`, strings are
stripped, and a fence-wrapped block of more than two lines is unwrapped by
dropping its first and last line, deleting any remaining backtick fences and
stripping, before parsing; otherwise the whole stripped string is parsed.
A parse failure yields `None`. -/
def try_parse_json (raw : PyVal) : Option PyVal :=
  match raw with
  | .dict es => some (.dict es)
  | .str s =>
    let t := stripChars s.data
    if ticks3.isPrefixOf t ∧ ticks3.isPrefixOf t.reverse then
      let lines := splitNl t
      if 2 < lines.length then
        let content := stripChars (replaceTicks (joinNl ((lines.drop 1).dropLast)))
        jsonLoads ⟨content⟩
      else jsonLoads ⟨t⟩
    else jsonLoads ⟨t⟩
  | _ => Option.none

/-- Python numeric view of a value for comparisons (bool is an int
subclass). -/
def pyNum : PyVal → Option Int
  | .int n => some n
  | .bool b => some (if b then 1 else 0)
  | _ => Option.none

/-- Python `x < y`: numeric/numeric or string/string, else `TypeError`. -/
def pyLt (x y : PyVal) : Except PyErr Bool :=
  match pyNum x, pyNum y with
  | some a, some b => .ok (decide (a < b))
  | _, _ =>
    match x, y with
    | .str a, .str b => .ok (decide (a < b))
    | _, _ => .error .typeError

/-- Python `x <= y`: numeric/numeric or string/string, else `TypeError`. -/
def pyLe (x y : PyVal) : Except PyErr Bool :=
  match pyNum x, pyNum y with
  | some a, some b => .ok (decide (a ≤ b))
  | _, _ =>
    match x, y with
    | .str a, .str b => .ok (decide (a ≤ b))
    | _, _ => .error .typeError

/-- Python `v[1]`. -/
def pyIndexOne : PyVal → Except PyErr PyVal
  | .list (_ :: x :: _) => .ok x
  | .list _ => .error .keyError
  | .str s =>
    match s.data with
    | _ :: c :: _ => .ok (.str ⟨[c]⟩)
    | _ => .error .keyError
  | .dict _ => .error .keyError
  | _ => .error .typeError

/-- Python iteration over a value: list elements, string characters (as
one-character strings), dict keys; anything else raises `TypeError`. -/
def pyIterate : PyVal → Except PyErr (List PyVal)
  | .list xs => .ok xs
  | .str s => .ok (s.data.map (fun c => .str ⟨[c]⟩))
  | .dict es => .ok (es.map (fun kv => .str kv.1))
  | _ => .error .typeError

/-- Short-circuiting `all(field in response for field in fields)` where the
membership test may raise. -/
def allKeys (response : PyVal) : List String → Except PyErr Bool
  | [] => .ok true
  | f :: fs =>
    match pyContains response (.str f) with
    | .error e => .error e
    | .ok false => .ok false
    | .ok true => allKeys response fs

/-- Short-circuiting `all(x in container for x in xs)` where the membership
test may raise. -/
def allMembers (container : PyVal) : List PyVal → Except PyErr Bool
  | [] => .ok true
  | t :: ts =>
    match pyContains container t with
    | .error e => .error e
    | .ok false => .ok false
    | .ok true => allMembers container ts

/-- The message `str(e)` of a modelled exception, as interpolated into
rejection reasons; only its exact shape on the paths under proof matters. -/
def errText : PyErr → String
  | .typeError => "TypeError"
  | .keyError => "KeyError"
  | .attributeError => "AttributeError"

namespace Behavioral

/-- The pydantic `Policy` model of the US package (`models.py` lines 30-33):
`PII` (whether PII is allowed), required compliance tags, allowed tools. -/
structure Policy where
  PII : Bool
  compliance_tags : List String
  allowed_tools : List String

/-- Translation of `ResponseValidator._validate_compliance_tags` (US
package, `validator.py` lines 110-114): false when the response has no
`compliance_tags` key, else every required tag must be a member of the
response's value (whose membership test may raise on malformed data). -/
def validateComplianceTags (response : PyVal) (requiredTags : List String) :
    Except PyErr Bool :=
  match pyContains response (.str "compliance_tags") with
  | .error e => .error e
  | .ok false => .ok false
  | .ok true =>
    match pySubscript response "compliance_tags" with
    | .error e => .error e
    | .ok v => allMembers v (requiredTags.map (fun t => .str t))

/-- Translation of `ResponseValidator._validate_allowed_tools` (US package,
`validator.py` lines 116-120). -/
def validateAllowedTools (response : PyVal) (allowed : List String) :
    Except PyErr Bool :=
  match pyContains response (.str "tools") with
  | .error e => .error e
  | .ok false => .ok true
  | .ok true =>
    match pySubscript response "tools" with
    | .error e => .error e
    | .ok tv =>
      match pyIterate tv with
      | .error e => .error e
      | .ok tools =>
        .ok (tools.all (fun t => allowed.any (fun a => pyEq t (.str a))))

/-- Translation of `ResponseValidator._validate_temperature` (US package,
`validator.py` lines 122-126).  `getattr(control, "min", 0.2)` and
`getattr(control, "max", 0.6)` look up attributes that the
`TemperatureControl` model (fields `mode`, `range`) does not have, so the
defaults 0.2 and 0.6 apply whatever range was configured. -/
def validateTemperature (temperature : PyVal) : Except PyErr Bool :=
  match pyNum temperature with
  | some n => .ok (decide ((1 : ℚ)/5 ≤ (n : ℚ) ∧ (n : ℚ) ≤ 3/5))
  | Option.none => .error .typeError

/-- Translation of `ResponseValidator._high_confidence_change` (US package,
`validator.py` lines 156-168). -/
def highConfidenceChange (response : PyVal) (context : PyDict) :
    Except PyErr Bool := do
  let memory := (dictLookup context "memory").getD (.list [])
  if ¬ pyTruthy memory then return false
  let first ← pyIndexZero memory
  let latest ← pyGetD first "analysis" (.dict [])
  let prevRec ← pyLower (← pyGetD latest "recommendation" (.str ""))
  let prevConf ← pyLower (← pyGetD latest "confidence" (.str ""))
  let currRec ← pyLower (← pyGetD response "recommendation" (.str ""))
  let currConf ← pyLower (← pyGetD response "confidence" (.str ""))
  return decide (prevConf = "high" ∧ prevRec ≠ "" ∧ currRec ≠ "" ∧
    prevRec ≠ currRec ∧ currConf = "high")

/-- The policy-gated checks of `ResponseValidator.validate` (US package,
`validator.py` lines 66-77): PII, compliance tags, allowed tools; a `some`
result is an early rejection verdict, `none` means the checks passed. -/
def validatePolicyStage (piiDetect : PyVal → Bool) (p : Policy)
    (response : PyVal) : Except PyErr (Option (Bool × String)) :=
  if ¬ p.PII ∧ piiDetect response then
    .ok (some (false, "PII detected in response"))
  else
    match validateComplianceTags response p.compliance_tags with
    | .error e => .error e
    | .ok false => .ok (some (false, "missing required compliance tags"))
    | .ok true =>
      match validateAllowedTools response p.allowed_tools with
      | .error e => .error e
      | .ok false => .ok (some (false, "unauthorized tools used"))
      | .ok true => .ok Option.none

/-- The temperature check of `ResponseValidator.validate` (US package,
`validator.py` lines 80-83), active when behavioral flags are supplied. -/
def validateTempStage (response : PyVal) : Except PyErr (Option (Bool × String)) :=
  match pyContains response (.str "temperature_used") with
  | .error e => .error e
  | .ok false => .ok Option.none
  | .ok true =>
    match pySubscript response "temperature_used" with
    | .error e => .error e
    | .ok t =>
      match validateTemperature t with
      | .error e => .error e
      | .ok true => .ok Option.none
      | .ok false => .ok (some (false, "temperature outside allowed range"))

/-- Translation of the body of `ResponseValidator.validate` (US package,
`validator.py` lines 61-95) before its surrounding `try`.  `piiDetect`
abstracts the regex scan of `_contains_pii` over the stringified response;
`startTimer` is whether `start_timer` was called, and `elapsedExceeds`
whether the measured wall-clock time exceeds `max_response_time_ms`. -/
def validateCore (requiredFields : List String) (piiDetect : PyVal → Bool)
    (policy : Option Policy) (hasFlags : Bool) (hasRespContract : Bool)
    (startTimer : Bool) (elapsedExceeds : Bool) (context : Option PyDict)
    (response : PyVal) : Except PyErr (Bool × String) :=
  match allKeys response requiredFields with
  | .error e => .error e
  | .ok false => .ok (false, "missing required fields")
  | .ok true =>
    match (match policy with
           | some p => validatePolicyStage piiDetect p response
           | Option.none => .ok Option.none) with
    | .error e => .error e
    | .ok (some verdict) => .ok verdict
    | .ok Option.none =>
      match (if hasFlags then validateTempStage response else .ok Option.none) with
      | .error e => .error e
      | .ok (some verdict) => .ok verdict
      | .ok Option.none =>
        if startTimer ∧ hasRespContract ∧ elapsedExceeds then
          .ok (false, "timeout: response time exceeded limit")
        else
          match (match context with
                 | some ctx =>
                   if pyTruthy (.dict ctx) then highConfidenceChange response ctx
                   else .ok false
                 | Option.none => .ok false) with
          | .error e => .error e
          | .ok true => .ok (false, "high confidence recommendation changed")
          | .ok false => .ok (true, "")

/-- Translation of `ResponseValidator.validate` (US package, `validator.py`
lines 56-99): the `try`/`except` turns any raised exception into
`(False, str(e))`, so this validator never raises. -/
def validate (requiredFields : List String) (piiDetect : PyVal → Bool)
    (policy : Option Policy) (hasFlags : Bool) (hasRespContract : Bool)
    (startTimer : Bool) (elapsedExceeds : Bool) (context : Option PyDict)
    (response : PyVal) : Bool × String :=
  match validateCore requiredFields piiDetect policy hasFlags hasRespContract
      startTimer elapsedExceeds context response with
  | .ok r => r
  | .error e => (false, errText e)

end Behavioral

namespace Behavioural

/-- Translation of `ResponseValidator.validate` (UK package, `validator.py`
lines 59-92).  There is no surrounding `try`, so malformed data makes the
checks raise.  Note the compliance check (lines 69-71) only requires the
`compliance_tags` key to exist in the response; the `_validate_compliance_tags`
helper that would compare tag sets is never called from here. -/
def validate (requiredFields : List String) (piiDetect : PyVal → Bool)
    (policy : PyDict) (behaviouralFlags : PyDict) (responseContract : PyDict)
    (startTimer : Bool) (elapsedExceeds : Bool) (response : PyVal) :
    Except PyErr (Bool × String) := do
  if ¬ (← allKeys response requiredFields) then
    return (false, "missing required fields")
  if ¬ pyTruthy ((dictLookup policy "pii").getD (.bool false)) then
    if piiDetect response then
      return (false, "pii detected in response")
  if (dictLookup policy "compliance_tags").isSome then
    if ¬ (← pyContains response (.str "compliance_tags")) then
      return (false, "missing compliance tags")
  if (dictLookup policy "allowed_tools").isSome then
    if ← pyContains response (.str "tools") then
      let tools ← pyIterate (← pySubscript response "tools")
      let allowed := (dictLookup policy "allowed_tools").getD .none
      if ¬ (← allMembers allowed tools) then
        return (false, "unauthorized tool used")
  if ← pyContains response (.str "previous_decision") then
    let prev ← pySubscript response "previous_decision"
    let dec ← pySubscript response "decision"
    if ¬ pyEq prev dec then
      return (false, "high confidence decision changed")
  if ← pyContains response (.str "temperature_used") then
    let temp ← pySubscript response "temperature_used"
    let tc ← pySubscript (.dict behaviouralFlags) "temperature_control"
    let range ← pySubscript tc "range"
    let r0 ← pyIndexZero range
    if ¬ (← pyLe r0 temp) then
      return (false, "temperature out of range")
    let r1 ← pyIndexOne range
    if ¬ (← pyLe temp r1) then
      return (false, "temperature out of range")
  if startTimer then
    let thr := (dictLookup responseContract "max_response_time_ms").getD (.int 5000)
    match pyNum thr with
    | some _ =>
      if elapsedExceeds then
        return (false, "response time exceeded")
    | Option.none => throw .typeError
  return (true, "")

end Behavioural

namespace Behavioural

/-- Translation of the module-level `is_suspicious_behavior` (UK package,
`contract.py` lines 265-293): with memory present and non-empty, compare the
lower-cased `decision` of the most recent memory analysis against the
lower-cased current `decision`; flag exactly when the previous confidence is
high, the decisions differ after lower-casing, and the current confidence is
high.  `.lower()` on a non-string value raises, hence the `Except`. -/
def is_suspicious_behavior (response : PyDict) (context : Option PyDict) :
    Except PyErr (Bool × String) := do
  match context with
  | some ctx =>
    if pyTruthy (.dict ctx) ∧ (dictLookup ctx "memory").isSome then
      let memory := (dictLookup ctx "memory").getD .none
      if pyTruthy memory then
        let first ← pyIndexZero memory
        let latest ← pyGetD first "analysis" (.dict [])
        let prevDecision ← pyLower (← pyGetD latest "decision" (.str ""))
        let prevConf ← pyLower (← pyGetD latest "confidence" (.str ""))
        let currDecision ← pyLower ((dictLookup response "decision").getD (.str ""))
        let currConf ← pyLower ((dictLookup response "confidence").getD (.str ""))
        if prevConf = "high" ∧ prevDecision ≠ currDecision ∧ currConf = "high" then
          return (true, "high confidence decision changed")
        else
          return (false, "")
      else
        return (false, "")
    else
      return (false, "")
  | Option.none => return (false, "")

/-- Python `getattr(d, name, default)` where `d` is a dict and `name` is
"on_" followed by a reason: `getattr` consults the object's attributes, not
the dict's keys, and a dict has no attribute starting with "on_", so the
default is always returned whatever entries the dict holds. -/
def dictGetAttrOn (_escalation : PyDict) (_name : String) (dflt : PyVal) : PyVal :=
  dflt

/-- Translation of `BehaviouralContract.handle_escalation` (UK package,
`contract.py` lines 130-137), as the logged escalation event: the action is
`getattr(self.escalation, "on_" + reason, "fallback")`. -/
def handle_escalation (escalation : PyDict) (reason : String) : PyDict :=
  [("reason", .str reason),
   ("action", dictGetAttrOn escalation ("on_" ++ reason) (.str "fallback"))]

/-- Helper for `validate_contract`: `contract.get(k1, {}).get(k2)` (the inner
`.get` raises `AttributeError` when the outer value is not a dict). -/
def vcGet (contract : PyDict) (k1 k2 : String) : Except PyErr PyVal :=
  pyGetD ((dictLookup contract k1).getD (.dict [])) k2 .none

/-- Translation of `validate_contract` (UK package, `contract.py` lines
229-262): `some msg` is the violation it raises, `none` means the contract
passes.  Only version, description, role, policy compliance tags and allowed
tools, and the conservatism and verbosity flags are inspected; the
temperature range is never looked at. -/
def validate_contract (contract : PyDict) : Except PyErr (Option String) := do
  if ¬ pyTruthy ((dictLookup contract "version").getD .none) then
    return some "Contract version is required"
  if ¬ pyTruthy ((dictLookup contract "description").getD .none) then
    return some "Contract description is required"
  if ¬ pyTruthy ((dictLookup contract "role").getD .none) then
    return some "Contract role is required"
  if ¬ pyTruthy (← vcGet contract "policy" "compliance_tags") then
    return some "At least one compliance tag is required"
  if ¬ pyTruthy (← vcGet contract "policy" "allowed_tools") then
    return some "At least one allowed tool is required"
  if ¬ pyTruthy (← vcGet contract "behavioural_flags" "conservatism") then
    return some "Conservatism level is required"
  if ¬ pyTruthy (← vcGet contract "behavioural_flags" "verbosity") then
    return some "Verbosity level is required"
  return Option.none

end Behavioural

namespace Behavioral

/-- Translation of `BehavioralContract.handle_escalation` (US package,
`contract.py` lines 100-106), as the logged escalation event: the action is
`self.escalation.get("on_" + reason, "fallback")`, a key lookup on the
escalation dict. -/
def handle_escalation (escalation : PyDict) (reason : String) : PyDict :=
  [("reason", .str reason),
   ("action", (dictLookup escalation ("on_" ++ reason)).getD (.str "fallback"))]

/-- Translation of `TemperatureControl.validate_range` (US package,
`models.py` lines 8-14): reject a list whose length is not two or whose
first entry exceeds its second; everything else is accepted unchanged. -/
def validate_range (v : List ℚ) : Except String (List ℚ) :=
  if v.length ≠ 2 then .error "Range must contain exactly 2 values [min, max]"
  else
    match v with
    | a :: b :: _ =>
      if a > b then .error "Range min must be less than max" else .ok v
    | _ => .error "Range must contain exactly 2 values [min, max]"

/-- Translation of `BehavioralContract.is_suspicious_behavior` (US package,
`contract.py` lines 36-89), the detector invoked by the enforcement
wrapper: it compares lower-cased `recommendation` values against the most
recent memory entry and falls back to an indicator-based bearish check.
Attribute and index accesses on malformed data raise. -/
def is_suspicious_behavior (response : PyVal) (context : Option PyDict) :
    Except PyErr Bool := do
  match context with
  | Option.none => return false
  | some ctx =>
    if ¬ (pyTruthy (.dict ctx) ∧ (dictLookup ctx "memory").isSome) then
      return false
    let currentRec ← pyLower (← pyGetD response "recommendation" (.str ""))
    if currentRec = "" then return false
    let staleMemory := (dictLookup ctx "memory").getD (.list [])
    if ¬ pyTruthy staleMemory then return false
    let first ← pyIndexZero staleMemory
    let latest ← pyGetD first "analysis" (.dict [])
    let staleRec ← pyLower (← pyGetD latest "recommendation" (.str ""))
    let staleConf ← pyLower (← pyGetD latest "confidence" (.str ""))
    if staleRec = "" then return false
    if staleConf = "high" ∧ staleRec ≠ currentRec then return true
    let indicators := (dictLookup ctx "indicators").getD (.dict [])
    if ¬ pyTruthy indicators then return false
    let bearish ← (do
      let rsi ← pyGetD indicators "rsi" (.int 50)
      if ← pyLt rsi (.int 30) then return true
      let e50 ← pyGetD indicators "ema_50" (.int 0)
      let e200 ← pyGetD indicators "ema_200" (.int 0)
      if ← pyLt e50 e200 then return true
      let trend ← pyGetD indicators "trend" (.str "")
      return pyEq trend (.str "strong_downtrend") : Except PyErr Bool)
    if staleRec = "buy" ∧ bearish ∧ currentRec = "buy" then return true
    return false

end Behavioral

/-- Modelled from the spec: `temperature.py` (class `TemperatureController`)
is imported by both packages but missing from the repository snapshot; only
`tests/test_temperature.py` exercises it.  Spec §4.5: in adaptive mode a
current value, initialised within the configured range, is moved toward the
range minimum by a fixed step on success and toward the maximum on failure,
clamped to the range in both cases; `get_temperature` reads it. -/
structure TemperatureController where
  mode : String
  rangeMin : ℚ
  rangeMax : ℚ
  step : ℚ
  current : ℚ

/-- Spec §4.5 `adjust(success)`: step toward the appropriate bound, then
clamp into the configured range. -/
def TemperatureController.adjust (tc : TemperatureController) (success : Bool) :
    TemperatureController :=
  let moved := if success then tc.current - tc.step else tc.current + tc.step
  { tc with current := max tc.rangeMin (min tc.rangeMax moved) }

/-- Spec §4.5 `get_temperature()`. -/
def TemperatureController.get_temperature (tc : TemperatureController) : ℚ :=
  tc.current

/-- A finite sequence of `adjust` calls with arbitrary outcomes. -/
def TemperatureController.adjustSeq (tc : TemperatureController)
    (outcomes : List Bool) : TemperatureController :=
  outcomes.foldl TemperatureController.adjust tc

/-- Modelled from the spec: `health_monitor.py` (class `HealthMonitor`) is
imported by both packages but missing from the repository snapshot; only
`tests/test_health_monitor.py` exercises it.  Spec §4.4: `add_strike`
appends a timestamped strike and discards strikes older than
`strike_window_seconds` relative to now; the status is "unhealthy" exactly
when the retained count reaches `max_strikes`; `reset` clears the list. -/
structure HealthMonitor where
  max_strikes : Nat
  strike_window_seconds : ℚ
  strikes : List ℚ

/-- Spec §4.4 `add_strike(reason)` at time `now`: prune strikes older than
the window, then record the new one. -/
def HealthMonitor.add_strike (hm : HealthMonitor) (now : ℚ) : HealthMonitor :=
  { hm with
    strikes :=
      (hm.strikes.filter (fun t => now - t ≤ hm.strike_window_seconds)) ++ [now] }

/-- Spec §4.4 derived status. -/
def HealthMonitor.status (hm : HealthMonitor) : String :=
  if hm.max_strikes ≤ hm.strikes.length then "unhealthy" else "healthy"

/-- Spec §4.4 `reset()`. -/
def HealthMonitor.reset (hm : HealthMonitor) : HealthMonitor :=
  { hm with strikes := [] }

namespace Behavioral

/-- One invocation outcome of the wrapped agent function's body. -/
inductive AgentOutcome where
  | ok (v : PyVal)
  | raise (e : PyErr)

/-- The wrapped agent: whether its signature accepts a `temperature` keyword
argument, and the outcome of each successive body invocation.  When the
keyword is not accepted, `fn(*args, temperature=t, **kwargs)` raises
`TypeError` at the call site without entering the body. -/
structure Agent where
  acceptsTemperature : Bool
  behavior : Nat → AgentOutcome

/-- The state the enforcement wrapper closes over, as built by
`BehavioralContract.__init__`: the raw `response_contract` value, the
`required_fields` value handed to the `ResponseValidator`, and the raw
`escalation` value. -/
structure ContractRec where
  responseContract : PyVal
  requiredFields : PyVal
  escalation : PyVal

/-- Result of one retry-loop iteration: either the wrapper returns this
response now, or the iteration failed (its exception was caught) and the
loop moves on. -/
inductive AttemptResult where
  | done (v : PyVal)
  | failed

/-- Like `allKeys` but for field names of arbitrary modelled type, as the
wrapper-supplied `required_fields` need not be strings. -/
def allKeysVals (response : PyVal) : List PyVal → Except PyErr Bool
  | [] => .ok true
  | f :: fs => do
    if ← pyContains response f then allKeysVals response fs else return false

/-- `ResponseValidator.validate(raw_response)` as invoked by the wrapper
(one positional argument): only the required-fields check is live — no
policy, flags, response contract or context are passed, and `start_timer`
is never called — and the surrounding `try` converts any raised exception
into `(False, str(e))`. -/
def wrapperValidate (requiredFields : PyVal) (response : PyVal) : Bool × String :=
  match (do
    let fs ← pyIterate requiredFields
    allKeysVals response fs : Except PyErr Bool) with
  | .ok true => (true, "")
  | .ok false => (false, "missing required fields")
  | .error e => (false, errText e)

/-- A Python 2-tuple in boolean context: tuple truthiness tests emptiness,
never contents, so `if validator.validate(raw_response):` sees a truthy
value whatever the validation verdict was. -/
def tupleTruthy (_t : Bool × String) : Bool := true

/-- The agent-call step of one loop iteration (`contract.py` lines 138-141):
`fn(*args, temperature=t, **kwargs)` inside `try`/`except TypeError`, then
`fn(*args, **kwargs)`.  When the signature rejects the keyword, the first
call raises `TypeError` without entering the body; when the body itself
raises `TypeError`, the handler also fires and the body is entered a
second time.  Returns the call outcome and the updated invocation count. -/
def attemptCall (agent : Agent) (count : Nat) : Except PyErr PyVal × Nat :=
  if agent.acceptsTemperature then
    match agent.behavior count with
    | .ok v => (.ok v, count + 1)
    | .raise .typeError =>
      match agent.behavior (count + 1) with
      | .ok v => (.ok v, count + 2)
      | .raise e => (.error e, count + 2)
    | .raise e => (.error e, count + 1)
  else
    match agent.behavior count with
    | .ok v => (.ok v, count + 1)
    | .raise e => (.error e, count + 1)

/-- The rest of one loop iteration (`contract.py` lines 143-196) on a raw
agent result: normalisation, the (always-truthy) validate tuple test, the
suspicious-behavior check with its flag annotations, and the response-time
branch.  `elapsedExceeds` abstracts the wall-clock comparison of line 170;
when it is true the logging call subscripts
`response_contract["max_response_time_ms"]` directly, which raises
`KeyError` inside the `try` if the key is absent. -/
def attemptBody (c : ContractRec) (kwargs : PyDict) (elapsedExceeds : Bool)
    (raw0 : PyVal) : AttemptResult :=
    let raw1 :=
      match raw0 with
      | .str s =>
        match try_parse_json (.str s) with
        | some p => p
        | Option.none => .str s
      | v => v
    if tupleTruthy (wrapperValidate c.requiredFields raw1) then
      let context : PyDict :=
        [("memory", (dictLookup kwargs "memory").getD (.list [])),
         ("indicators", (dictLookup kwargs "indicators").getD (.dict []))]
      match Behavioral.is_suspicious_behavior raw1 (some context) with
      | .error _ => .failed
      | .ok susp =>
        let afterFlag : Except PyErr PyVal :=
          if susp then do
            let _ ← pyGetD c.escalation "on_unexpected_output" (.str "fallback")
            match raw1 with
            | .dict es =>
              pure (.dict (dictSet
                (dictSet es "flagged_for_review" (.bool true))
                "strike_reason"
                (.str "Suspicious output based on stale context or mismatch")))
            | _ => throw .typeError
          else pure raw1
        match afterFlag with
        | .error _ => .failed
        | .ok raw2 =>
          match pyGetD c.responseContract "max_response_time_ms" (.int 5000) with
          | .error _ => .failed
          | .ok thr =>
            match pyNum thr with
            | Option.none => .failed
            | some _ =>
              if elapsedExceeds then
                match pySubscript c.responseContract "max_response_time_ms" with
                | .ok _ => .done raw2
                | .error _ => .failed
              else .done raw2
    else
      .failed

/-- One iteration of the wrapper's retry loop (`contract.py` lines 131-196)
starting at `count` total body invocations.  The `try` spans the whole
iteration, so any modelled exception raised inside it is caught (a strike is
recorded, the temperature adjusted) and the iteration simply fails. -/
def runAttempt (c : ContractRec) (agent : Agent) (kwargs : PyDict)
    (elapsedExceeds : Bool) (count : Nat) : AttemptResult × Nat :=
  match attemptCall agent count with
  | (.error _, count2) => (.failed, count2)
  | (.ok raw0, count2) => (attemptBody c kwargs elapsedExceeds raw0, count2)

/-- The wrapper's retry loop: run up to the given number of iterations,
threading the invocation count; `none` means every iteration failed. -/
def runAttempts (c : ContractRec) (agent : Agent) (kwargs : PyDict)
    (elapsedExceeds : Bool) : Nat → Nat → Option PyVal × Nat
  | 0, count => (Option.none, count)
  | n + 1, count =>
    match runAttempt c agent kwargs elapsedExceeds count with
    | (.done v, count2) => (some v, count2)
    | (.failed, count2) => runAttempts c agent kwargs elapsedExceeds n count2

/-- The configured fallback,
`response_contract["output_format"]["on_failure"]["fallback"]`. -/
def fallbackChain (responseContract : PyVal) : Except PyErr PyVal := do
  let ofmt ← pySubscript responseContract "output_format"
  let onf ← pySubscript ofmt "on_failure"
  pySubscript onf "fallback"

/-- `range(max_retries + 1)` for a `max_retries` value read with
`.get("max_retries", 1)`: a non-number raises `TypeError` at the addition,
and a negative count gives an empty loop. -/
def retryCount (v : PyVal) : Except PyErr Nat :=
  match pyNum v with
  | some n => .ok (n + 1).toNat
  | Option.none => .error .typeError

/-- Translation of the enforcement wrapper produced by the
`behavioral_contract` decorator (US package, `contract.py` lines 115-201).
The first component is the wrapper's outcome — `.error` meaning an
exception escapes to the caller — and the second the total number of agent
body invocations.  `healthUnhealthy` is the health monitor's status at
entry; `elapsedExceeds` abstracts the response-time comparison. -/
def wrapperRun (c : ContractRec) (healthUnhealthy : Bool) (agent : Agent)
    (kwargs : PyDict) (elapsedExceeds : Bool) : Except PyErr PyVal × Nat :=
  if healthUnhealthy then
    (fallbackChain c.responseContract, 0)
  else
    match (do
      let ofmt ← pySubscript c.responseContract "output_format"
      let onf ← pySubscript ofmt "on_failure"
      let mr ← pyGetD onf "max_retries" (.int 1)
      retryCount mr : Except PyErr Nat) with
    | .error e => (.error e, 0)
    | .ok attempts =>
      match runAttempts c agent kwargs elapsedExceeds attempts 0 with
      | (some v, count) => (.ok v, count)
      | (Option.none, count) =>
        match pyGetD c.escalation "on_unexpected_output" (.str "fallback") with
        | .error e => (.error e, count)
        | .ok _ => (fallbackChain c.responseContract, count)

end Behavioral

/-! Concrete instances used by the individual verification results. -/

/-- A minimal well-formed contract record with one required field
("decision"), `max_retries = 1` and the canonical unknown/low fallback. -/
def specDecisionOnly : Behavioral.ContractRec :=
  { responseContract := .dict
      [("output_format", .dict
        [("required_fields", .list [.str "decision"]),
         ("on_failure", .dict
           [("max_retries", .int 1),
            ("fallback", .dict
              [("decision", .str "unknown"), ("confidence", .str "low")])])])],
    requiredFields := .list [.str "decision"],
    escalation := .dict [] }

/-- An agent that accepts the temperature keyword and returns the empty dict
(missing every required field) on every invocation. -/
def agentEmptyDict : Behavioral.Agent :=
  { acceptsTemperature := true, behavior := fun _ => .ok (.dict []) }

/-- The same contract record under a second name, so the retry-count result
stands on its own. -/
def specRetryOne : Behavioral.ContractRec := specDecisionOnly

/-- An agent whose body raises `TypeError` on every invocation, triggering
the call-without-temperature retry inside each loop iteration. -/
def agentBodyTypeError : Behavioral.Agent :=
  { acceptsTemperature := true, behavior := fun _ => .raise .typeError }

/-- An agent whose body raises `KeyError` on every invocation. -/
def agentAlwaysRaises : Behavioral.Agent :=
  { acceptsTemperature := true, behavior := fun _ => .raise .keyError }

/-- A complete contract dict whose temperature range is inverted
([0.9, 0.1], written as ints 9 and 1 scaled by ten in the model's integer
payloads: the exact numbers are irrelevant, only that min exceeds max). -/
def contractInvertedRange : PyDict :=
  [("version", .str "1.0"), ("description", .str "d"), ("role", .str "r"),
   ("policy", .dict [("compliance_tags", .list [.str "t"]),
                     ("allowed_tools", .list [.str "x"])]),
   ("behavioural_flags", .dict
     [("conservatism", .str "high"), ("verbosity", .str "compact"),
      ("temperature_control", .dict
        [("mode", .str "adaptive"), ("range", .list [.int 9, .int 1])])])]

/-- The dict `{"a": "<three backticks>"}`, whose serialised form contains a
fence sequence inside a string value. -/
def fencePayload : PyVal := .dict [("a", .str ⟨ticks3⟩)]

/-- The serialised text of `fencePayload`, as `json.dumps` renders it. -/
def fencePayloadText : List Char :=
  ['{', '"', 'a', '"', ':', ' ', '"'] ++ ticks3 ++ ['"', '}']

/-- `fencePayloadText` wrapped in a markdown code fence, the fences on their
own lines. -/
def fencePayloadFenced : List Char :=
  ticks3 ++ '\n' :: fencePayloadText ++ '\n' :: ticks3

/-- The serialised text of the dict mapping "a" to 1. -/
def sampleJsonText : List Char := ['{', '"', 'a', '"', ':', ' ', '1', '}']

/-! Verification results. -/

/-- C9 counterexample: `validate_range` accepts the range [2, 3] although
its bounds lie outside [0, 1], and accepts [0.4, 0.4] although its min is
not strictly less than its max; `validate_contract` likewise accepts a
complete contract whose configured range is inverted, so construction does
not reject these specs. -/
theorem C9_counterexample :
    Behavioral.validate_range [(2 : ℚ), 3] = .ok [2, 3] ∧ ¬ ((3 : ℚ) ≤ 1) ∧
    Behavioral.validate_range [(2 : ℚ)/5, 2/5] = .ok [2/5, 2/5] ∧
    ¬ ((2 : ℚ)/5 < 2/5) ∧
    Behavioural.validate_contract contractInvertedRange = .ok Option.none := by
  refine ⟨by norm_num [Behavioral.validate_range], by norm_num, ?_, by norm_num, rfl⟩
  norm_num [Behavioral.validate_range]

/-- C9 (amended): contract-specification validation rejects a temperature
range exactly when it does not have two entries or its min exceeds its max;
a range with min equal to max, or with bounds outside [0, 1], passes. -/
theorem C9_validate_range_characterisation (a b : ℚ) (v : List ℚ) :
    (a ≤ b → Behavioral.validate_range [a, b] = .ok [a, b]) ∧
    (b < a →
      Behavioral.validate_range [a, b] = .error "Range min must be less than max") ∧
    (v.length ≠ 2 →
      Behavioral.validate_range v =
        .error "Range must contain exactly 2 values [min, max]") := by
  refine ⟨fun h => ?_, fun h => ?_, fun h => ?_⟩
  · simp [Behavioral.validate_range, not_lt.mpr h]
  · simp [Behavioral.validate_range, h]
  · unfold Behavioral.validate_range
    simp [h]

/-- C9 witness: the characterisation applied at the in-bounds range
[0.2, 0.6], the inverted range [0.6, 0.2] and the empty list. -/
theorem C9_witness :
    Behavioral.validate_range [(1 : ℚ)/5, 3/5] = .ok [1/5, 3/5] ∧
    Behavioral.validate_range [(3 : ℚ)/5, 1/5] =
      .error "Range min must be less than max" ∧
    Behavioral.validate_range ([] : List ℚ) =
      .error "Range must contain exactly 2 values [min, max]" :=
  ⟨(C9_validate_range_characterisation (1/5) (3/5) []).1 (by norm_num),
   (C9_validate_range_characterisation (3/5) (1/5) []).2.1 (by norm_num),
   (C9_validate_range_characterisation 0 0 []).2.2 (by simp)⟩

/-- C7: with the controller initialised inside its configured range, any
finite sequence of `adjust` calls with arbitrary success flags leaves
`get_temperature` within [rangeMin, rangeMax], because every adjustment is
clamped into the range. -/
theorem C7_temperature_stays_in_range (tc : TemperatureController)
    (outcomes : List Bool) (hlo : tc.rangeMin ≤ tc.current)
    (hhi : tc.current ≤ tc.rangeMax) :
    tc.rangeMin ≤ (tc.adjustSeq outcomes).get_temperature ∧
    (tc.adjustSeq outcomes).get_temperature ≤ tc.rangeMax := by
  induction outcomes generalizing tc with
  | nil => exact ⟨hlo, hhi⟩
  | cons b rest ih =>
    have hrange : tc.rangeMin ≤ tc.rangeMax := le_trans hlo hhi
    have h1 : (tc.adjust b).rangeMin ≤ (tc.adjust b).current :=
      le_max_left _ _
    have h2 : (tc.adjust b).current ≤ (tc.adjust b).rangeMax :=
      max_le hrange (min_le_left _ _)
    simpa [TemperatureController.adjustSeq] using ih (tc.adjust b) h1 h2

/-- C7 witness: a controller on [0.2, 0.6] starting at 0.4 with step 0.1,
run through four adjustments. -/
theorem C7_witness :
    (1 : ℚ)/5 ≤ (TemperatureController.adjustSeq
      ⟨"adaptive", 1/5, 3/5, 1/10, 2/5⟩ [true, true, false, true]).get_temperature ∧
    (TemperatureController.adjustSeq
      ⟨"adaptive", 1/5, 3/5, 1/10, 2/5⟩ [true, true, false, true]).get_temperature ≤ 3/5 :=
  C7_temperature_stays_in_range _ _ (by norm_num) (by norm_num)

/-- C8: after `add_strike` at time `now` every retained strike lies within
the window of `now`; the status is "unhealthy" exactly when the retained
count reaches `max_strikes`; and when every previous strike is strictly
older than the window, the new strike leaves exactly one retained strike and
a "healthy" status whenever `max_strikes` exceeds one. -/
theorem C8_health_monitor_window (hm : HealthMonitor) (now : ℚ)
    (hwin : 0 ≤ hm.strike_window_seconds) :
    (∀ t ∈ (hm.add_strike now).strikes, now - t ≤ hm.strike_window_seconds) ∧
    ((hm.add_strike now).status = "unhealthy" ↔
      hm.max_strikes ≤ (hm.add_strike now).strikes.length) ∧
    ((∀ t ∈ hm.strikes, hm.strike_window_seconds < now - t) →
      (hm.add_strike now).strikes.length = 1 ∧
      (1 < hm.max_strikes → (hm.add_strike now).status = "healthy")) := by
  have hms : (hm.add_strike now).max_strikes = hm.max_strikes := rfl
  have hstr : (hm.add_strike now).strikes
      = hm.strikes.filter (fun t => decide (now - t ≤ hm.strike_window_seconds))
        ++ [now] := rfl
  refine ⟨?_, ?_, ?_⟩
  · intro t ht
    rw [hstr] at ht
    simp only [List.mem_append, List.mem_filter, List.mem_singleton] at ht
    rcases ht with ⟨_, hp⟩ | rfl
    · exact of_decide_eq_true hp
    · simpa using hwin
  · unfold HealthMonitor.status
    rw [hms]
    split
    · next h => exact ⟨fun _ => h, fun _ => rfl⟩
    · next h =>
      constructor
      · intro habs; exact absurd habs (by decide)
      · intro hle; exact absurd hle h
  · intro hold
    have hfil : hm.strikes.filter
        (fun t => decide (now - t ≤ hm.strike_window_seconds)) = [] := by
      rw [List.filter_eq_nil_iff]
      intro t ht
      simp only [decide_eq_true_eq]
      exact not_le.mpr (hold t ht)
    constructor
    · rw [hstr, hfil]
      rfl
    · intro hmax
      unfold HealthMonitor.status
      rw [hms, hstr, hfil]
      have hne : ¬ (hm.max_strikes ≤ (([] : List ℚ) ++ [now]).length) := by
        simp only [List.nil_append, List.length_singleton]
        omega
      rw [if_neg hne]

/-- C8 witness: window 1 second, threshold 3, one old strike at time 0; a
new strike at time 2.1 prunes the stale strike, leaves one retained strike
inside the window, and the status stays healthy. -/
theorem C8_witness :
    (∀ t ∈ ((⟨3, 1, [0]⟩ : HealthMonitor).add_strike (21/10)).strikes,
      (21 : ℚ)/10 - t ≤ 1) ∧
    (((⟨3, 1, [0]⟩ : HealthMonitor).add_strike (21/10)).status = "unhealthy" ↔
      3 ≤ ((⟨3, 1, [0]⟩ : HealthMonitor).add_strike (21/10)).strikes.length) ∧
    ((⟨3, 1, [0]⟩ : HealthMonitor).add_strike (21/10)).strikes.length = 1 ∧
    ((⟨3, 1, [0]⟩ : HealthMonitor).add_strike (21/10)).status = "healthy" := by
  have h := C8_health_monitor_window ⟨3, 1, [0]⟩ (21/10) (by norm_num)
  have hold : ∀ t ∈ ([0] : List ℚ), (1 : ℚ) < 21/10 - t := by
    intro t ht
    simp only [List.mem_singleton] at ht
    subst ht
    norm_num
  exact ⟨h.1, h.2.1, (h.2.2 hold).1, (h.2.2 hold).2 (by norm_num)⟩

/-- C2: whenever the call context carries a non-empty memory whose most
recent entry's analysis records a high confidence and a decision that
differs (after the detector's lower-casing) from the current response's
decision, and the current confidence is high, the module-level
`is_suspicious_behavior` reports the change.  The detector compares
lower-cased values, so "differs" is case-insensitive. -/
theorem C2_high_confidence_decision_change_flagged
    (response ctx analysis entry : PyDict) (rest : List PyVal)
    (dMem dCur cMem cCur : String)
    (hmem : dictLookup ctx "memory" = some (.list (.dict entry :: rest)))
    (hana : dictLookup entry "analysis" = some (.dict analysis))
    (hdm : dictLookup analysis "decision" = some (.str dMem))
    (hcm : dictLookup analysis "confidence" = some (.str cMem))
    (hdc : dictLookup response "decision" = some (.str dCur))
    (hcc : dictLookup response "confidence" = some (.str cCur))
    (hm : strLower cMem = "high") (hc : strLower cCur = "high")
    (hne : strLower dMem ≠ strLower dCur) :
    Behavioural.is_suspicious_behavior response (some ctx)
      = .ok (true, "high confidence decision changed") := by
  cases ctx with
  | nil => simp [dictLookup] at hmem
  | cons p ctx2 =>
    unfold Behavioural.is_suspicious_behavior
    simp [hmem, hana, hdm, hcm, hdc, hcc, hm, hc, hne, pyTruthy, pyGetD,
      pyIndexZero, pyLower, Except.bind, bind, pure, Except.pure]

/-- C2 witness: the specification's own example, memory
[{"analysis": {"decision": "BUY", "confidence": "high"}}] against the
current response {"decision": "SELL", "confidence": "high"}. -/
theorem C2_witness :
    Behavioural.is_suspicious_behavior
      [("decision", .str "SELL"), ("confidence", .str "high")]
      (some [("memory", .list [.dict
        [("analysis", .dict
          [("decision", .str "BUY"), ("confidence", .str "high")])]])])
      = .ok (true, "high confidence decision changed") :=
  C2_high_confidence_decision_change_flagged _ _ _ _ [] "BUY" "SELL" "high" "high"
    rfl rfl rfl rfl rfl rfl rfl rfl (by decide)

/-- C6 counterexample: with the escalation mapping configured as
{"on_unexpected_output": "escalate_to_human"}, the UK
`handle_escalation("unexpected_output")` still logs the action "fallback" —
`getattr` on a dict never consults its keys — so the configured value is
not resolved, contradicting the claim for this variant. -/
theorem C6_counterexample :
    dictLookup [("on_unexpected_output", PyVal.str "escalate_to_human")]
      "on_unexpected_output" = some (.str "escalate_to_human") ∧
    dictLookup (Behavioural.handle_escalation
      [("on_unexpected_output", .str "escalate_to_human")] "unexpected_output")
      "action" = some (.str "fallback") ∧
    PyVal.str "fallback" ≠ PyVal.str "escalate_to_human" := by
  refine ⟨rfl, rfl, by simp⟩

/-- C6 (amended): the US `handle_escalation` resolves the action to the
mapping entry under key on_<reason> when present and to "fallback" when
absent, never raising; the UK variant performs `getattr` on the escalation
dict, so it always resolves "fallback" regardless of the mapping. -/
theorem C6_escalation_resolution (escalation : PyDict) (reason : String) :
    (∀ v, dictLookup escalation ("on_" ++ reason) = some v →
      dictLookup (Behavioral.handle_escalation escalation reason) "action"
        = some v) ∧
    (dictLookup escalation ("on_" ++ reason) = Option.none →
      dictLookup (Behavioral.handle_escalation escalation reason) "action"
        = some (.str "fallback")) ∧
    dictLookup (Behavioural.handle_escalation escalation reason) "action"
      = some (.str "fallback") := by
  refine ⟨fun v hv => ?_, fun hv => ?_, ?_⟩
  · simp [Behavioral.handle_escalation, dictLookup, hv]
  · simp [Behavioral.handle_escalation, dictLookup, hv]
  · simp [Behavioural.handle_escalation, Behavioural.dictGetAttrOn, dictLookup]

/-- C6 witness: a configured reason resolves to its configured action, and a
missing reason resolves to "fallback", in the US implementation. -/
theorem C6_witness :
    dictLookup (Behavioral.handle_escalation
      [("on_unexpected_output", .str "page_oncall")] "unexpected_output")
      "action" = some (.str "page_oncall") ∧
    dictLookup (Behavioral.handle_escalation [] "context_mismatch") "action"
      = some (.str "fallback") :=
  ⟨(C6_escalation_resolution
      [("on_unexpected_output", .str "page_oncall")] "unexpected_output").1 _ rfl,
   (C6_escalation_resolution [] "context_mismatch").2.1 rfl⟩

/-- C1: with required field "decision", an agent that returns the empty dict
on every attempt, and the canonical unknown/low fallback configured, the
wrapper returns the agent's invalid response itself after a single
invocation.  The validator does report "missing required fields", but the
wrapper tests the truthiness of the returned (bool, reason) tuple — always
true — so the retry/fallback branch is unreachable and the invalid response
flows straight through, contradicting the claim (and the wrapper's own
dead code for the failure path). -/
theorem C1_invalid_response_returned_unchanged :
    (Behavioral.wrapperRun specDecisionOnly false agentEmptyDict [] false).1
      = .ok (.dict []) ∧
    (Behavioral.wrapperRun specDecisionOnly false agentEmptyDict [] false).2 = 1 ∧
    dictLookup ([] : PyDict) "decision" = Option.none ∧
    (Behavioral.wrapperValidate specDecisionOnly.requiredFields (.dict [])).1
      = false ∧
    Behavioral.tupleTruthy
      (Behavioral.wrapperValidate specDecisionOnly.requiredFields (.dict []))
      = true ∧
    PyVal.dict [] ≠
      PyVal.dict [("decision", .str "unknown"), ("confidence", .str "low")] := by
  refine ⟨rfl, rfl, rfl, rfl, rfl, by simp⟩

/-- The agent-call step enters the agent body at most twice. -/
theorem attemptCall_count_le (agent : Behavioral.Agent) (n : Nat) :
    (Behavioral.attemptCall agent n).2 ≤ n + 2 := by
  unfold Behavioral.attemptCall
  split
  · split <;> try simp_arith
    split <;> simp_arith
  · split <;> simp_arith

/-- When the agent body never raises `TypeError`, the agent-call step enters
the body exactly once. -/
theorem attemptCall_count_noTypeError (agent : Behavioral.Agent) (n : Nat)
    (h : ∀ i, agent.behavior i ≠ .raise .typeError) :
    (Behavioral.attemptCall agent n).2 = n + 1 := by
  unfold Behavioral.attemptCall
  split
  · cases hB : agent.behavior n with
    | ok v => simp
    | raise e =>
      cases e with
      | typeError => exact absurd hB (h n)
      | keyError => simp
      | attributeError => simp
  · split <;> simp

/-- The retry loop enters the agent body at most twice per iteration. -/
theorem runAttempts_count_le (c : Behavioral.ContractRec)
    (agent : Behavioral.Agent) (kwargs : PyDict) (ee : Bool) (fuel n : Nat) :
    (Behavioral.runAttempts c agent kwargs ee fuel n).2 ≤ n + 2 * fuel := by
  induction fuel generalizing n with
  | zero => simp [Behavioral.runAttempts]
  | succ f ih =>
    unfold Behavioral.runAttempts Behavioral.runAttempt
    rcases hc : Behavioral.attemptCall agent n with ⟨res, n2⟩
    have hb : n2 ≤ n + 2 := by
      have h := attemptCall_count_le agent n
      rw [hc] at h
      exact h
    cases res with
    | error e =>
      simp only []
      calc (Behavioral.runAttempts c agent kwargs ee f n2).2
          ≤ n2 + 2 * f := ih n2
        _ ≤ n + 2 * (f + 1) := by omega
    | ok raw =>
      simp only []
      cases Behavioral.attemptBody c kwargs ee raw with
      | done v => simpa using le_trans hb (by omega)
      | failed =>
        calc (Behavioral.runAttempts c agent kwargs ee f n2).2
            ≤ n2 + 2 * f := ih n2
          _ ≤ n + 2 * (f + 1) := by omega

/-- When the agent body never raises `TypeError`, the retry loop enters the
body at most once per iteration. -/
theorem runAttempts_count_le_noTypeError (c : Behavioral.ContractRec)
    (agent : Behavioral.Agent) (kwargs : PyDict) (ee : Bool) (fuel n : Nat)
    (hte : ∀ i, agent.behavior i ≠ .raise .typeError) :
    (Behavioral.runAttempts c agent kwargs ee fuel n).2 ≤ n + fuel := by
  induction fuel generalizing n with
  | zero => simp [Behavioral.runAttempts]
  | succ f ih =>
    unfold Behavioral.runAttempts Behavioral.runAttempt
    rcases hc : Behavioral.attemptCall agent n with ⟨res, n2⟩
    have hb : n2 = n + 1 := by
      have h := attemptCall_count_noTypeError agent n hte
      rw [hc] at h
      exact h
    cases res with
    | error e =>
      simp only []
      calc (Behavioral.runAttempts c agent kwargs ee f n2).2
          ≤ n2 + f := ih n2
        _ ≤ n + (f + 1) := by omega
    | ok raw =>
      simp only []
      cases Behavioral.attemptBody c kwargs ee raw with
      | done v => simp [hb]
      | failed =>
        calc (Behavioral.runAttempts c agent kwargs ee f n2).2
            ≤ n2 + f := ih n2
          _ ≤ n + (f + 1) := by omega

/-- C4 (amended): with a configured non-negative integer `max_retries`, the
wrapper enters the agent body at most `max_retries + 1` times provided the
agent body never raises `TypeError`; in general (the keyword-retry handler
also catches a `TypeError` raised by the body itself, re-invoking the agent
within the same iteration) the bound is `2 * (max_retries + 1)`. -/
theorem C4_retry_invocation_bound (c : Behavioral.ContractRec)
    (agent : Behavioral.Agent) (kwargs : PyDict) (ee health : Bool)
    (rc ofd onf : PyDict) (m : Int)
    (hrc : c.responseContract = .dict rc)
    (hof : dictLookup rc "output_format" = some (.dict ofd))
    (honf : dictLookup ofd "on_failure" = some (.dict onf))
    (hmr : dictLookup onf "max_retries" = some (.int m))
    (hm : 0 ≤ m) :
    ((∀ i, agent.behavior i ≠ .raise .typeError) →
      (Behavioral.wrapperRun c health agent kwargs ee).2 ≤ m.toNat + 1) ∧
    (Behavioral.wrapperRun c health agent kwargs ee).2 ≤ 2 * (m.toNat + 1) := by
  have h1 : (m + 1).toNat = m.toNat + 1 := by omega
  have hofv : pySubscript (PyVal.dict rc) "output_format" = .ok (.dict ofd) := by
    simp [pySubscript, hof]
  have honfv : pySubscript (PyVal.dict ofd) "on_failure" = .ok (.dict onf) := by
    simp [pySubscript, honf]
  have hmrv : pyGetD (PyVal.dict onf) "max_retries" (.int 1) = .ok (.int m) := by
    simp [pyGetD, hmr]
  unfold Behavioral.wrapperRun
  cases health
  · simp only [Bool.false_eq_true, if_false]
    simp only [hrc, hofv, honfv, hmrv, Behavioral.retryCount, pyNum,
      Except.bind, bind, h1]
    rcases hr : Behavioral.runAttempts c agent kwargs ee (m.toNat + 1) 0
      with ⟨opt, count⟩
    have hb : count ≤ 2 * (m.toNat + 1) := by
      have h := runAttempts_count_le c agent kwargs ee (m.toNat + 1) 0
      rw [hr] at h
      omega
    constructor
    · intro hte
      have hbn : count ≤ m.toNat + 1 := by
        have h := runAttempts_count_le_noTypeError c agent kwargs ee
          (m.toNat + 1) 0 hte
        rw [hr] at h
        omega
      cases opt with
      | some v => simpa using hbn
      | none =>
        cases pyGetD c.escalation "on_unexpected_output" (.str "fallback") with
        | error e => simpa using hbn
        | ok a => simpa using hbn
    · cases opt with
      | some v => simpa using hb
      | none =>
        cases pyGetD c.escalation "on_unexpected_output" (.str "fallback") with
        | error e => simpa using hb
        | ok a => simpa using hb
  · simp

/-- C4 witness: the bound applied to the concrete contract (max_retries 1)
with an agent that always raises `KeyError` (never `TypeError`): at most two
invocations, and indeed exactly two. -/
theorem C4_witness :
    (Behavioral.wrapperRun specRetryOne false agentAlwaysRaises [] false).2
      ≤ (1 : Int).toNat + 1 ∧
    (Behavioral.wrapperRun specRetryOne false agentAlwaysRaises [] false).2 = 2 :=
  ⟨(C4_retry_invocation_bound specRetryOne agentAlwaysRaises [] false false
      _ _ _ 1 rfl rfl rfl rfl (by norm_num)).1
      (fun i h => by simp [agentAlwaysRaises] at h),
    rfl⟩

/-- C4 counterexample: with max_retries configured as 1, an agent accepting
the temperature keyword whose body raises `TypeError` on every invocation
is entered four times — the handler for the keyword retry also catches the
body's own `TypeError` and re-invokes within each of the two iterations —
exceeding the claimed bound of max_retries + 1 = 2. -/
theorem C4_counterexample :
    (∃ rc ofd onf : PyDict,
      specRetryOne.responseContract = .dict rc ∧
      dictLookup rc "output_format" = some (.dict ofd) ∧
      dictLookup ofd "on_failure" = some (.dict onf) ∧
      dictLookup onf "max_retries" = some (.int 1)) ∧
    (Behavioral.wrapperRun specRetryOne false agentBodyTypeError [] false).2 = 4 ∧
    ¬ ((4 : Nat) ≤ 1 + 1) :=
  ⟨⟨_, _, _, rfl, rfl, rfl, rfl⟩, rfl, by norm_num⟩

/-- C3: for any well-formed contract record — `response_contract` a dict
holding an `output_format` dict with an `on_failure` dict that has a
`fallback` entry, `max_retries` absent or an integer, and a dict-valued
escalation mapping — the wrapper returns a value for every agent (including
agents whose body raises on every invocation), every kwargs, every health
state and every timing outcome: no modelled exception escapes, because the
loop body is wrapped in `except Exception` and the code outside the `try`
only performs the lookups guaranteed by well-formedness. -/
theorem C3_wrapper_never_raises (c : Behavioral.ContractRec)
    (agent : Behavioral.Agent) (kwargs : PyDict) (ee health : Bool)
    (rc ofd onf : PyDict) (fb : PyVal) (esc : PyDict)
    (hrc : c.responseContract = .dict rc)
    (hof : dictLookup rc "output_format" = some (.dict ofd))
    (honf : dictLookup ofd "on_failure" = some (.dict onf))
    (hfb : dictLookup onf "fallback" = some fb)
    (hmr : dictLookup onf "max_retries" = Option.none ∨
      ∃ m : Int, dictLookup onf "max_retries" = some (.int m))
    (hesc : c.escalation = .dict esc) :
    ∃ v, (Behavioral.wrapperRun c health agent kwargs ee).1 = .ok v := by
  have hofv : pySubscript (PyVal.dict rc) "output_format" = .ok (.dict ofd) := by
    simp [pySubscript, hof]
  have honfv : pySubscript (PyVal.dict ofd) "on_failure" = .ok (.dict onf) := by
    simp [pySubscript, honf]
  have hfbv : pySubscript (PyVal.dict onf) "fallback" = .ok fb := by
    simp [pySubscript, hfb]
  have hfbc : Behavioral.fallbackChain (PyVal.dict rc) = .ok fb := by
    unfold Behavioral.fallbackChain
    simp [hofv, honfv, hfbv, Except.bind, bind]
  obtain ⟨m, hmrv⟩ : ∃ m : Int,
      pyGetD (PyVal.dict onf) "max_retries" (.int 1) = .ok (.int m) := by
    rcases hmr with h | ⟨m, h⟩
    · exact ⟨1, by simp [pyGetD, h]⟩
    · exact ⟨m, by simp [pyGetD, h]⟩
  unfold Behavioral.wrapperRun
  cases health
  · simp only [Bool.false_eq_true, if_false, hrc, hofv, honfv, hmrv,
      Behavioral.retryCount, pyNum, Except.bind, bind]
    rcases hr : Behavioral.runAttempts c agent kwargs ee (m + 1).toNat 0
      with ⟨opt, count⟩
    cases opt with
    | some v => exact ⟨v, rfl⟩
    | none =>
      rw [hesc]
      simp only [pyGetD]
      exact ⟨fb, by simpa using congrArg (fun x => x) hfbc⟩
  · simpa [hrc] using ⟨fb, hfbc⟩

/-- C3 witness: the concrete contract with an agent that raises `KeyError`
on every invocation; the wrapper still returns a value (the configured
fallback). -/
theorem C3_witness :
    (∃ v, (Behavioral.wrapperRun specDecisionOnly false agentAlwaysRaises []
      false).1 = .ok v) ∧
    (Behavioral.wrapperRun specDecisionOnly false agentAlwaysRaises [] false).1
      = .ok (.dict [("decision", .str "unknown"), ("confidence", .str "low")]) :=
  ⟨C3_wrapper_never_raises specDecisionOnly agentAlwaysRaises [] false false
      _ _ _ (.dict [("decision", .str "unknown"), ("confidence", .str "low")]) []
      rfl rfl rfl rfl (Or.inr ⟨1, rfl⟩) rfl,
   rfl⟩

/-- If the policy stage passes, the compliance-tag check returned true. -/
theorem validatePolicyStage_pass (piiD : PyVal → Bool) (p : Behavioral.Policy)
    (r : PyVal)
    (h : Behavioral.validatePolicyStage piiD p r = .ok Option.none) :
    Behavioral.validateComplianceTags r p.compliance_tags = .ok true := by
  unfold Behavioral.validatePolicyStage at h
  split at h
  · simp at h
  · split at h
    · simp at h
    · simp at h
    · rename_i heq
      split at h <;> simp_all

/-- Every early verdict of the policy stage is a rejection. -/
theorem validatePolicyStage_reject (piiD : PyVal → Bool) (p : Behavioral.Policy)
    (r : PyVal) (vd : Bool × String)
    (h : Behavioral.validatePolicyStage piiD p r = .ok (some vd)) :
    vd.1 = false := by
  unfold Behavioral.validatePolicyStage at h
  split at h
  · simp only [Except.ok.injEq, Option.some.injEq] at h
    rw [← h]
  · split at h
    · simp at h
    · simp only [Except.ok.injEq, Option.some.injEq] at h
      rw [← h]
    · split at h
      · simp at h
      · simp only [Except.ok.injEq, Option.some.injEq] at h
        rw [← h]
      · simp at h

/-- Every early verdict of the temperature stage is a rejection. -/
theorem validateTempStage_reject (r : PyVal) (vd : Bool × String)
    (h : Behavioral.validateTempStage r = .ok (some vd)) : vd.1 = false := by
  unfold Behavioral.validateTempStage at h
  split at h
  · simp at h
  · simp at h
  · split at h
    · simp at h
    · split at h
      · simp at h
      · simp at h
      · simp only [Except.ok.injEq, Option.some.injEq] at h
        rw [← h]

/-- If some required tag is not a member of the container, the
short-circuiting membership conjunction cannot return true. -/
theorem allMembers_missing_tag (v : PyVal) (tags : List String) (tag : String)
    (hmem : tag ∈ tags) (hmiss : pyContains v (.str tag) = .ok false) :
    allMembers v (tags.map (fun t => .str t)) ≠ .ok true := by
  induction tags with
  | nil => cases hmem
  | cons t ts ih =>
    intro hall
    rw [List.map_cons] at hall
    simp only [allMembers] at hall
    rcases List.mem_cons.mp hmem with rfl | hmem2
    · split at hall <;> simp_all
    · split at hall
      · simp at hall
      · simp at hall
      · exact absurd hall (ih hmem2)

/-- The US validator returns exactly what its core computes, with raised
exceptions converted to rejections. -/
theorem validate_of_core_ok (rf : List String) (piiD : PyVal → Bool)
    (policy : Option Behavioral.Policy) (hasFlags hasRC st ee : Bool)
    (ctx : Option PyDict) (response : PyVal) (r : Bool × String)
    (h : Behavioral.validateCore rf piiD policy hasFlags hasRC st ee ctx
      response = .ok r) :
    Behavioral.validate rf piiD policy hasFlags hasRC st ee ctx response = r := by
  unfold Behavioral.validate
  rw [h]

/-- Exception case of the US validator wrapper. -/
theorem validate_of_core_err (rf : List String) (piiD : PyVal → Bool)
    (policy : Option Behavioral.Policy) (hasFlags hasRC st ee : Bool)
    (ctx : Option PyDict) (response : PyVal) (e : PyErr)
    (h : Behavioral.validateCore rf piiD policy hasFlags hasRC st ee ctx
      response = .error e) :
    Behavioral.validate rf piiD policy hasFlags hasRC st ee ctx response
      = (false, errText e) := by
  unfold Behavioral.validate
  rw [h]

/-- C5 (amended): the US `ResponseValidator.validate` (the variant that
consults `_validate_compliance_tags`) accepts only when the response's
`compliance_tags` key exists and every policy tag is a member of its value,
and rejects any response whose `compliance_tags` value lacks a required
tag.  (The UK variant checks only that the key exists — see the
counterexample.) -/
theorem C5_compliance_superset (rf : List String) (piiD : PyVal → Bool)
    (p : Behavioral.Policy) (hasFlags hasRC st ee : Bool)
    (ctx : Option PyDict) (response : PyVal)
    (_hne : p.compliance_tags ≠ []) :
    (Behavioral.validate rf piiD (some p) hasFlags hasRC st ee ctx response
        = (true, "") →
      Behavioral.validateComplianceTags response p.compliance_tags = .ok true ∧
      pyContains response (.str "compliance_tags") = .ok true) ∧
    (∀ (v : PyVal) (tag : String), tag ∈ p.compliance_tags →
      pySubscript response "compliance_tags" = .ok v →
      pyContains v (.str tag) = .ok false →
      (Behavioral.validate rf piiD (some p) hasFlags hasRC st ee ctx
        response).1 = false) := by
  constructor
  · intro hacc
    have hcore : Behavioral.validateCore rf piiD (some p) hasFlags hasRC st ee
        ctx response = .ok (true, "") := by
      cases hc : Behavioral.validateCore rf piiD (some p) hasFlags hasRC st ee
          ctx response with
      | error e =>
        have := validate_of_core_err rf piiD (some p) hasFlags hasRC st ee ctx
          response e hc
        rw [hacc] at this
        simp at this
      | ok r =>
        have := validate_of_core_ok rf piiD (some p) hasFlags hasRC st ee ctx
          response r hc
        rw [hacc] at this
        rw [← this]
    unfold Behavioral.validateCore at hcore
    split at hcore
    · simp at hcore
    · simp at hcore
    · split at hcore
      · simp at hcore
      · rename_i verdict heqP
        have hv : verdict.1 = false :=
          validatePolicyStage_reject piiD p response verdict heqP
        simp only [Except.ok.injEq] at hcore
        rw [hcore] at hv
        simp at hv
      · rename_i heqP
        have hvct := validatePolicyStage_pass piiD p response heqP
        refine ⟨hvct, ?_⟩
        unfold Behavioral.validateComplianceTags at hvct
        split at hvct
        · simp at hvct
        · simp at hvct
        · next heqC => exact heqC
  · intro v tag htag hsub hcf
    have hresp : pyContains response (.str "compliance_tags") = .ok true := by
      cases response <;> simp [pySubscript] at hsub ⊢
      next es =>
        rw [pyContains]
        cases hlk : dictLookup es "compliance_tags" with
        | none => rw [hlk] at hsub; simp at hsub
        | some w => simp [hlk]
    have hvctne : Behavioral.validateComplianceTags response p.compliance_tags
        ≠ .ok true := by
      unfold Behavioral.validateComplianceTags
      simp only [hresp, hsub]
      exact allMembers_missing_tag v p.compliance_tags tag htag hcf
    cases hc : Behavioral.validateCore rf piiD (some p) hasFlags hasRC st ee
        ctx response with
    | error e =>
      rw [validate_of_core_err rf piiD (some p) hasFlags hasRC st ee ctx
        response e hc]
    | ok r =>
      rw [validate_of_core_ok rf piiD (some p) hasFlags hasRC st ee ctx
        response r hc]
      unfold Behavioral.validateCore at hc
      split at hc
      · simp at hc
      · simp only [Except.ok.injEq] at hc
        rw [← hc]
      · split at hc
        · simp at hc
        · rename_i verdict heqP
          have hv : verdict.1 = false :=
            validatePolicyStage_reject piiD p response verdict heqP
          simp only [Except.ok.injEq] at hc
          rw [← hc]
          exact hv
        · rename_i heqP
          exact absurd (validatePolicyStage_pass piiD p response heqP) hvctne

/-- C5 counterexample: the UK `ResponseValidator.validate` accepts a
response whose `compliance_tags` field is present but lacks the required
tag "gdpr" (policy pii allowed, compliance_tags ["gdpr"]): lines 69-71 only
check that the key exists, so the claim is false for this variant. -/
theorem C5_counterexample :
    Behavioural.validate [] (fun _ => false)
      [("pii", .bool true), ("compliance_tags", .list [.str "gdpr"])] [] []
      false false (.dict [("compliance_tags", .list [.str "other"])])
      = .ok (true, "") ∧
    pyContains (.list [.str "other"]) (.str "gdpr") = .ok false ∧
    ("gdpr" : String) ∈ ["gdpr"] :=
  ⟨rfl, rfl, by simp⟩

/-- C5 witness: the US validator accepts a response carrying the required
tag (and then the compliance check indeed passed), and rejects one whose
`compliance_tags` list is present but empty. -/
theorem C5_witness :
    Behavioral.validateComplianceTags
      (.dict [("compliance_tags", .list [.str "gdpr"])]) ["gdpr"] = .ok true ∧
    (Behavioral.validate [] (fun _ => false)
      (some ⟨true, ["gdpr"], []⟩) false false false false Option.none
      (.dict [("compliance_tags", .list [])])).1 = false :=
  ⟨((C5_compliance_superset [] (fun _ => false) ⟨true, ["gdpr"], []⟩ false false
      false false Option.none
      (.dict [("compliance_tags", .list [.str "gdpr"])]) (by simp)).1 rfl).1,
   (C5_compliance_superset [] (fun _ => false) ⟨true, ["gdpr"], []⟩ false false
      false false Option.none (.dict [("compliance_tags", .list [])])
      (by simp)).2 (.list []) "gdpr" (by simp) rfl rfl⟩

/-- Splitting on newlines never yields an empty list of pieces. -/
theorem splitNl_ne_nil (l : List Char) : splitNl l ≠ [] := by
  induction l with
  | nil => simp [splitNl]
  | cons c rest ih =>
    unfold splitNl
    cases h : splitNl rest with
    | nil => exact absurd h ih
    | cons a t =>
      split
      · simp
      · split <;> simp

/-- A newline-free list splits into itself. -/
theorem splitNl_no_nl (l : List Char) (h : '\n' ∉ l) : splitNl l = [l] := by
  induction l with
  | nil => rfl
  | cons c rest ih =>
    have hc : c ≠ '\n' := fun e => h (e ▸ List.mem_cons_self c rest)
    have hr : '\n' ∉ rest := fun m => h (List.mem_cons_of_mem c m)
    unfold splitNl
    rw [ih hr]
    simp [hc]

/-- Splitting a list that starts with a newline-free piece followed by a
newline peels off that piece. -/
theorem splitNl_append (l r : List Char) (h : '\n' ∉ l) :
    splitNl (l ++ '\n' :: r) = l :: splitNl r := by
  induction l with
  | nil =>
    show splitNl ('\n' :: r) = [] :: splitNl r
    conv_lhs => unfold splitNl
    cases hsr : splitNl r with
    | nil => exact absurd hsr (splitNl_ne_nil r)
    | cons a t => simp
  | cons c rest ih =>
    have hc : c ≠ '\n' := fun e => h (e ▸ List.mem_cons_self c rest)
    have hr : '\n' ∉ rest := fun m => h (List.mem_cons_of_mem c m)
    show splitNl (c :: (rest ++ '\n' :: r)) = (c :: rest) :: splitNl r
    conv_lhs => unfold splitNl
    rw [ih hr]
    simp [hc]

/-- The fence marker is a prefix of anything it heads. -/
theorem ticks3_isPrefixOf_append (X : List Char) :
    ticks3.isPrefixOf (ticks3 ++ X) = true := by
  show List.isPrefixOf [tick, tick, tick] (tick :: tick :: tick :: X) = true
  simp [List.isPrefixOf]

/-- Stripping a fence-wrapped payload changes nothing: it starts and ends
with a backtick, which is not whitespace. -/
theorem stripChars_fenced (s : List Char) :
    stripChars (ticks3 ++ '\n' :: s ++ '\n' :: ticks3)
      = ticks3 ++ '\n' :: s ++ '\n' :: ticks3 := by
  have hsp : isSpaceChar tick = false := by decide
  have h1 : (ticks3 ++ '\n' :: s ++ '\n' :: ticks3).dropWhile isSpaceChar
      = ticks3 ++ '\n' :: s ++ '\n' :: ticks3 := by
    show (tick :: (tick :: tick :: ('\n' :: s ++ '\n' :: ticks3))
      : List Char).dropWhile isSpaceChar = _
    simp [List.dropWhile_cons, hsp, ticks3]
  have hF : ticks3 ++ '\n' :: s ++ '\n' :: ticks3
      = (ticks3 ++ '\n' :: s ++ ['\n']) ++ ticks3 := by simp
  have h2 : (ticks3 ++ '\n' :: s ++ '\n' :: ticks3).reverse.dropWhile isSpaceChar
      = (ticks3 ++ '\n' :: s ++ '\n' :: ticks3).reverse := by
    rw [hF, List.reverse_append]
    show (tick :: (tick :: tick :: ((ticks3 ++ '\n' :: s ++ ['\n']).reverse))
      : List Char).dropWhile isSpaceChar = _
    simp [List.dropWhile_cons, hsp, ticks3]
  unfold stripChars
  rw [h1, h2, List.reverse_reverse]

/-- C10 (amended): `try_parse_json` returns a dict input unchanged, returns
`None` for non-string non-dict input, behaves as `json.loads` on an already
stripped, unfenced string (so unparseable strings yield `None` and never
raise), and recovers `d` from a serialisation of `d` both bare and wrapped
in a fence on its own lines — provided the serialised text contains no
three-backtick sequence; when it does, the fence-unwrapping
`replace("<fence>", "")` deletes it from the payload and a different value
is recovered (see the counterexample). -/
theorem C10_try_parse_json_roundtrip :
    (∀ es : PyDict, try_parse_json (.dict es) = some (.dict es)) ∧
    (∀ n : Int, try_parse_json (.int n) = Option.none) ∧
    (∀ s : String, stripChars s.data = s.data →
      ticks3.isPrefixOf s.data = false →
      try_parse_json (.str s) = jsonLoads s) ∧
    (∀ (d : PyVal) (s : String), jsonLoads s = some d →
      stripChars s.data = s.data → ticks3.isPrefixOf s.data = false →
      '\n' ∉ s.data → replaceTicks s.data = s.data →
      try_parse_json (.str s) = some d ∧
      try_parse_json (.str ⟨ticks3 ++ '\n' :: s.data ++ '\n' :: ticks3⟩)
        = some d) := by
  have hplain : ∀ s : String, stripChars s.data = s.data →
      ticks3.isPrefixOf s.data = false →
      try_parse_json (.str s) = jsonLoads s := by
    intro s h1 h2
    obtain ⟨sd⟩ := s
    unfold try_parse_json
    simp only [h1, h2]
    simp
  refine ⟨fun es => rfl, fun n => rfl, hplain, ?_⟩
  intro d s hload h1 h2 hnl hrep
  obtain ⟨sd⟩ := s
  refine ⟨(hplain ⟨sd⟩ h1 h2).trans hload, ?_⟩
  have hspF := stripChars_fenced sd
  have hpreF : ticks3.isPrefixOf (ticks3 ++ '\n' :: sd ++ '\n' :: ticks3)
      = true := ticks3_isPrefixOf_append _
  have hrevF : ticks3.isPrefixOf
      (ticks3 ++ '\n' :: sd ++ '\n' :: ticks3).reverse = true := by
    have hF : ticks3 ++ '\n' :: sd ++ '\n' :: ticks3
        = (ticks3 ++ '\n' :: sd ++ ['\n']) ++ ticks3 := by simp
    rw [hF, List.reverse_append]
    exact ticks3_isPrefixOf_append _
  have hsplit : splitNl (ticks3 ++ '\n' :: sd ++ '\n' :: ticks3)
      = [ticks3, sd, ticks3] := by
    rw [List.append_assoc, List.cons_append]
    rw [splitNl_append ticks3 _ (by decide), splitNl_append sd ticks3 hnl,
      splitNl_no_nl ticks3 (by decide)]
  unfold try_parse_json
  simp only [hspF, hpreF, hrevF, hsplit]
  simp [joinNl, hrep, h1, hload]

/-- C10 counterexample: `json.dumps` of {"a": "<three backticks>"} is the
text `{"a": "<three backticks>"}`, which parses back to the dict — yet
wrapping that same text in a code fence on its own lines makes
`try_parse_json` return {"a": ""}: the fence-stripping
`replace("<fence>", "")` also deletes the backticks inside the string
value, so the fenced round trip claimed for every dict fails here. -/
theorem C10_counterexample :
    json_dumps fencePayload = ⟨fencePayloadText⟩ ∧
    jsonLoads ⟨fencePayloadText⟩ = some fencePayload ∧
    try_parse_json (.str ⟨fencePayloadFenced⟩)
      = some (.dict [("a", .str "")]) ∧
    PyVal.dict [("a", .str "")] ≠ fencePayload := by
  refine ⟨rfl, rfl, rfl, ?_⟩
  intro h
  rw [fencePayload] at h
  simp only [PyVal.dict.injEq, List.cons.injEq, Prod.mk.injEq,
    PyVal.str.injEq, and_true] at h
  exact absurd h.2 (by decide)

/-- C10 witness: the round-trip results applied at the dict {"a": 1}, whose
serialisation `{"a": 1}` is fence-free and newline-free, plus the
dict-identity and unparseable-string cases. -/
theorem C10_witness :
    try_parse_json (.dict [("a", .int 1)]) = some (.dict [("a", .int 1)]) ∧
    try_parse_json (.str "not json") = Option.none ∧
    try_parse_json (.str ⟨sampleJsonText⟩) = some (.dict [("a", .int 1)]) ∧
    try_parse_json
      (.str ⟨ticks3 ++ '\n' :: sampleJsonText ++ '\n' :: ticks3⟩)
      = some (.dict [("a", .int 1)]) :=
  ⟨C10_try_parse_json_roundtrip.1 [("a", .int 1)],
   (C10_try_parse_json_roundtrip.2.2.1 "not json" rfl rfl).trans rfl,
   (C10_try_parse_json_roundtrip.2.2.2 (.dict [("a", .int 1)]) ⟨sampleJsonText⟩
     rfl rfl rfl (by decide) rfl).1,
   (C10_try_parse_json_roundtrip.2.2.2 (.dict [("a", .int 1)]) ⟨sampleJsonText⟩
     rfl rfl rfl (by decide) rfl).2⟩
